import Mathlib

/-!
Verification of the MCP server platform core: the SSE frame parser, the
MCP protocol client state machine, and the workflow orchestrator route.
Each definition is a shallow embedding of the corresponding TypeScript
source in `src/web/src/lib/mcp-client.ts` and the workflow route handler.
-/

/--
Splitting of a character sequence at every newline, with the JavaScript
semantics of `s.split("\n")`: the empty string yields one empty piece, and
a trailing newline yields a trailing empty piece.
-/
def splitNlChars : List Char → List (List Char)
  | [] => [[]]
  | c :: rest =>
    if c = '\n' then [] :: splitNlChars rest
    else
      match splitNlChars rest with
      | [] => [[c]]
      | l :: ls => (c :: l) :: ls

/-- String form of `splitNlChars`, the embedding of `s.split("\n")`. -/
def jsSplitNl (s : String) : List String :=
  (splitNlChars s.data).map String.mk

/-- Embedding of `String.prototype.trim`: strip whitespace from both ends. -/
def jsTrim (s : String) : String :=
  String.mk (((s.data.dropWhile Char.isWhitespace).reverse.dropWhile
    Char.isWhitespace).reverse)

/-- Embedding of `String.prototype.startsWith`. -/
def jsStartsWith (s p : String) : Bool :=
  p.data.isPrefixOf s.data

/-- Embedding of `String.prototype.substring(n)`: drop the first n characters. -/
def jsDropChars (s : String) (n : Nat) : String :=
  String.mk (s.data.drop n)

namespace SSEParser

/--
One iteration of the line loop inside `SSEParser.parse`.  The state is the
pair of the local `currentData` accumulator and the list of payloads passed
to the `onMessage` callback so far.  A blank line flushes a non-empty
`currentData`; a line whose trimmed form starts with `data:` replaces
`currentData` with the trimmed remainder after the prefix; every other line
is ignored.
-/
def lineStep (st : String × List String) (line : String) : String × List String :=
  if jsTrim line = "" then
    if st.1 ≠ "" then ("", st.2 ++ [st.1]) else st
  else if jsStartsWith (jsTrim line) "data:" then
    (jsTrim (jsDropChars (jsTrim line) 5), st.2)
  else
    st

/--
Embedding of `SSEParser.parse`.  The instance state is the carry-over
`buffer`; the call appends the chunk, splits on newlines, keeps the final
(possibly incomplete) line as the new buffer, and runs the line loop over
the remaining lines starting from an empty `currentData`.  The result is
the new buffer together with the payloads emitted during this call; note
that the `currentData` accumulator is local to the call and is discarded
when the call returns, exactly as in the source.
-/
def parse (buffer chunk : String) : String × List String :=
  let s := buffer ++ chunk
  let lines := jsSplitNl s
  let newBuffer := lines.getLast?.getD ""
  let st := lines.dropLast.foldl lineStep ("", [])
  (newBuffer, st.2)

/-- Feed a list of chunks to the parser in order, collecting all payloads. -/
def parseChunks (buffer : String) (chunks : List String) : String × List String :=
  chunks.foldl
    (fun st c =>
      let r := parse st.1 c
      (r.1, st.2 ++ r.2))
    (buffer, [])

end SSEParser

/--
A list of lines is a run of data lines when every line trims to a non-empty
string that starts with the `data:` field prefix and carries a non-empty
payload after the prefix.
-/
def DataLines (ls : List String) : Prop :=
  ∀ l ∈ ls, jsTrim l ≠ "" ∧ jsStartsWith (jsTrim l) "data:" = true ∧
    jsTrim (jsDropChars (jsTrim l) 5) ≠ ""

/-- The payload carried by a data line: trim, strip the 5-character prefix, trim. -/
def dataPayload (l : String) : String :=
  jsTrim (jsDropChars (jsTrim l) 5)

theorem lineStep_data (st : String × List String) (l : String)
    (h : jsTrim l ≠ "" ∧ jsStartsWith (jsTrim l) "data:" = true ∧
      jsTrim (jsDropChars (jsTrim l) 5) ≠ "") :
    SSEParser.lineStep st l = (dataPayload l, st.2) := by
  unfold SSEParser.lineStep dataPayload
  rw [if_neg h.1, if_pos h.2.1]

theorem foldl_data_lines (ls : List String) (hne : ls ≠ []) (hd : DataLines ls) :
    ∀ cd out, ls.foldl SSEParser.lineStep (cd, out) =
      (dataPayload (ls.getLast hne), out) := by
  induction ls with
  | nil => exact absurd rfl hne
  | cons l ls ih =>
    intro cd out
    rw [List.foldl_cons, lineStep_data (cd, out) l (hd l (List.mem_cons_self l ls))]
    match ls, ih with
    | [], _ => rfl
    | l2 :: ls2, ih =>
      have hd2 : DataLines (l2 :: ls2) := fun x hx => hd x (List.mem_cons_of_mem l hx)
      rw [ih (List.cons_ne_nil l2 ls2) hd2 (dataPayload l) out]
      rfl


theorem parse_unfold (b c : String) :
    SSEParser.parse b c =
      ((jsSplitNl (b ++ c)).getLast?.getD "",
        (List.foldl SSEParser.lineStep ("", []) (jsSplitNl (b ++ c)).dropLast).2) :=
  rfl

/--
C9: for every chunk passed to `SSEParser.parse` that contains one complete
frame with two or more data-prefixed lines (each carrying a non-empty
payload) before the terminating blank line, the callback is invoked exactly
once, with only the payload of the last data-prefixed line; payloads of
earlier data lines in the same frame are discarded, not concatenated.
-/
theorem sse_last_data_line_wins (c : String) (ls : List String)
    (hsplit : jsSplitNl c = ls ++ ["", ""])
    (hlen : 2 ≤ ls.length)
    (hd : DataLines ls)
    (hne : ls ≠ []) :
    (SSEParser.parse "" c).2 = [dataPayload (ls.getLast hne)] := by
  have hbc : "" ++ c = c := by
    apply String.ext
    simp [String.data_append]
  rw [parse_unfold, hbc, hsplit]
  have hsplit2 : ls ++ ["", ""] = (ls ++ [""]) ++ [""] := by simp
  rw [hsplit2, List.dropLast_concat, List.foldl_append,
    foldl_data_lines ls hne hd "" []]
  have hlast := hd (ls.getLast hne) (List.getLast_mem hne)
  have hp : dataPayload (ls.getLast hne) ≠ "" := hlast.2.2
  rw [List.foldl_cons, List.foldl_nil]
  unfold SSEParser.lineStep
  rw [if_pos (show jsTrim "" = "" from rfl), if_pos hp]
  rfl


/-- Witness for `sse_last_data_line_wins` at a concrete two-data-line frame. -/
theorem sse_last_data_line_wins_witness :
    (SSEParser.parse "" "data: a\ndata: b\n\n").2 = ["b"] := by
  have h := sse_last_data_line_wins "data: a\ndata: b\n\n" ["data: a", "data: b"]
    (by decide) (by decide)
    (by intro l hl; fin_cases hl <;> exact ⟨by decide, by decide, by decide⟩)
    (by decide)
  rw [h]
  decide

/--
C1: the claim states that for every logical frame, however its text is
split into successive chunks fed to `SSEParser.parse`, the per-frame
callback fires exactly once with the same payload as in single-chunk
delivery, and that no frame split across chunk boundaries is dropped.  The
code violates this: the `currentData` accumulator is a local of each
`parse` call, so when the chunk boundary falls between the complete
data-prefixed line and the terminating blank line, the payload is discarded
when the first call returns and the blank line in the next call finds an
empty accumulator.  Delivered as one chunk, the frame `data: foo\n\n`
produces the payload `foo`; delivered as the two chunks `data: foo\n` and
`\n`, the parser emits nothing at all and the frame is silently dropped.
-/
theorem sse_split_frame_dropped :
    (SSEParser.parseChunks "" ["data: foo\n\n"]).2 = ["foo"] ∧
    (SSEParser.parseChunks "" ["data: foo\n", "\n"]).2 = [] := by
  constructor
  · decide
  · decide

/--
A JSON value as produced by `JSON.parse` and consumed through JavaScript
property access in the client and the workflow route.
-/
inductive Json where
  | null
  | bool (b : Bool)
  | num (n : Int)
  | str (s : String)
  | arr (elems : List Json)
  | obj (fields : List (String × Json))

/-- JavaScript truthiness of a value. -/
def Json.truthy : Json → Bool
  | .null => false
  | .bool b => b
  | .num n => n ≠ 0
  | .str s => s ≠ ""
  | .arr _ => true
  | .obj _ => true

/-- JavaScript truthiness of a possibly-undefined value. -/
def jsTruthy : Option Json → Bool
  | none => false
  | some j => j.truthy

/--
JavaScript property access `x.k`: reading a property of `null` raises a
TypeError, reading a missing property of an object (or any property of a
primitive) yields `undefined`, encoded as `none`.
-/
def Json.getProp : Json → String → Except String (Option Json)
  | .null, k => .error ("TypeError: cannot read properties of null (reading " ++ k ++ ")")
  | .obj fs, k => .ok (fs.lookup k)
  | _, _ => .ok none

/-- Property access on a possibly-undefined value: `undefined.k` raises. -/
def jsGetProp (x : Option Json) (k : String) : Except String (Option Json) :=
  match x with
  | none => .error ("TypeError: cannot read properties of undefined (reading " ++ k ++ ")")
  | some j => j.getProp k

/-- The error member of a JSON-RPC response. -/
structure RpcError where
  code : Int
  message : String
  errData : Option Json

/-- A JSON-RPC 2.0 response envelope as typed in the client source. -/
structure JSONRPCResponse where
  id : String
  result? : Option Json
  error? : Option RpcError

/-- The settlement state of one request promise. -/
inductive PromiseState where
  | pending
  | resolved (v : JSONRPCResponse)
  | rejected (msg : String)

/-- Resolving a promise settles it only if it is still pending. -/
def settleResolve : PromiseState → JSONRPCResponse → PromiseState
  | .pending, v => .resolved v
  | s, _ => s

/-- Rejecting a promise settles it only if it is still pending. -/
def settleReject : PromiseState → String → PromiseState
  | .pending, m => .rejected m
  | s, _ => s

namespace MCPClient

/-- The fixed request deadline of the client, in milliseconds. -/
def requestTimeout : Nat := 10000

/--
The mutable state of one `MCPClient` instance: the ids with a live
pending-request entry (whose deadline timer is live exactly while the entry
is), the settlement state of every promise the instance created, the
request id counter, the connected flag, and whether the background SSE
stream controller is live.
-/
structure ClientState where
  pending : List String
  promises : List (String × PromiseState)
  requestIdCounter : Nat
  connected : Bool
  sseActive : Bool

/-- Embedding of `generateRequestId`: the pre-incremented counter and the
current time, rendered into a single id string. -/
def generateRequestId (counter now : Nat) : String :=
  "req_" ++ Nat.repr (counter + 1) ++ "_" ++ Nat.repr now

/--
The synchronous prefix of `sendRequest`: mint an id, install the pending
entry with its deadline timer, and create the pending promise.
-/
def sendRequestStart (s : ClientState) (now : Nat) : ClientState × String :=
  let id := generateRequestId s.requestIdCounter now
  ({ s with
      requestIdCounter := s.requestIdCounter + 1
      pending := s.pending ++ [id]
      promises := s.promises ++ [(id, .pending)] }, id)

/-- Reject the promise stored under the given id, if any. -/
def rejectPromise (ps : List (String × PromiseState)) (id msg : String) :
    List (String × PromiseState) :=
  ps.map (fun p => (p.1, if p.1 = id then settleReject p.2 msg else p.2))

/-- Resolve the promise stored under the given id, if any. -/
def resolvePromise (ps : List (String × PromiseState)) (id : String)
    (v : JSONRPCResponse) : List (String × PromiseState) :=
  ps.map (fun p => (p.1, if p.1 = id then settleResolve p.2 v else p.2))

/--
An asynchronous completion delivered to the client event loop: the deadline
timer of a request fires at absolute time `t`; the point-to-point call of a
request returns a response body; or the point-to-point call fails and the
rejection handler installed by `sendRequest` runs.
-/
inductive ClientEvent where
  | timerFire (id : String) (t : Nat)
  | response (id : String) (body : JSONRPCResponse) (t : Nat)
  | postError (id : String) (msg : String) (t : Nat)

/-- The request id targeted by an event. -/
def ClientEvent.targetId : ClientEvent → String
  | .timerFire id _ => id
  | .response id _ _ => id
  | .postError id _ _ => id

/--
Embedding of the three completion handlers in `sendRequest`/`postMessage`.
The timer callback deletes the entry and rejects with the timeout
diagnostic; a timer only fires while its entry is live, since every removal
of an entry also clears its timer.  A response body resolves and removes
the entry only if the entry is still present.  A transport failure clears
the timer, removes the entry, and rejects with the failure.
-/
def applyEvent (s : ClientState) : ClientEvent → ClientState
  | .timerFire id _ =>
    if id ∈ s.pending then
      { s with
          pending := s.pending.filter (fun x => x != id)
          promises := rejectPromise s.promises id
            ("Request timeout after " ++ Nat.repr requestTimeout ++ "ms") }
    else s
  | .response id body _ =>
    if id ∈ s.pending then
      { s with
          pending := s.pending.filter (fun x => x != id)
          promises := resolvePromise s.promises id body }
    else s
  | .postError id msg _ =>
    { s with
        pending := s.pending.filter (fun x => x != id)
        promises := rejectPromise s.promises id msg }

/-- Run a sequence of completions through the event loop. -/
def runEvents (s : ClientState) (es : List ClientEvent) : ClientState :=
  es.foldl applyEvent s

/--
Embedding of `close()`: every live pending entry has its timer cleared and
its promise rejected with the connection-closed failure, the table is
cleared, the SSE stream controller is aborted and dropped, and the
connected flag is reset.
-/
def close (s : ClientState) : ClientState :=
  { pending := []
    promises := s.promises.map
      (fun p => (p.1, if p.1 ∈ s.pending then settleReject p.2 "Connection closed" else p.2))
    requestIdCounter := s.requestIdCounter
    connected := false
    sseActive := false }

end MCPClient

namespace MCPClient

/-- Outcome of the health-check fetch: a thrown transport error, or an HTTP
response with its ok flag, status code and status text. -/
structure HttpProbe where
  ok : Bool
  status : Nat
  statusText : String

/-- The remote outcomes observed during one `connect()` attempt. -/
structure ConnectWorld where
  health : Except String HttpProbe
  initResult : Except String JSONRPCResponse

/-- The settlement that `sendRequest` performs on its promise when the
point-to-point call completes. -/
def settledOf : Except String JSONRPCResponse → PromiseState
  | .error e => .rejected e
  | .ok v => .resolved v

/--
Embedding of `connect()`.  An already-connected instance fails immediately
with no other effect.  Otherwise the health check runs; a thrown error or a
non-ok status tears the client down via `close` and surfaces the failure.
Then the initialize request runs through `sendRequest` (bumping the id
counter and settling its promise); a rejection or a protocol-level error
member again tears down via `close` and surfaces the failure.  On success
the SSE stream is started in the background and the instance is marked
connected.
-/
def connect (s : ClientState) (w : ConnectWorld) (now : Nat) :
    ClientState × Except String Unit :=
  if s.connected then
    (s, .error "Already connected to MCP server")
  else
    match w.health with
    | .error e => (close s, .error e)
    | .ok probe =>
      if !probe.ok then
        (close s, .error ("Server health check failed: " ++ Nat.repr probe.status
          ++ " " ++ probe.statusText))
      else
        let id := generateRequestId s.requestIdCounter now
        let s1 := { s with
          requestIdCounter := s.requestIdCounter + 1
          promises := s.promises ++ [(id, settledOf w.initResult)] }
        match w.initResult with
        | .error e => (close s1, .error e)
        | .ok resp =>
          match resp.error? with
          | some err =>
            (close s1, .error ("Initialize failed: " ++ err.message ++ " ("
              ++ toString err.code ++ ")"))
          | none => ({ s1 with sseActive := true, connected := true }, .ok ())

/--
Embedding of `listTools()`.  Requires the connected state; surfaces a
rejected discovery request or a protocol-level error member as a failure;
otherwise reads `result.tools` (a TypeError if `result` is absent) and
falls back to an empty array when the field is missing or falsy.
-/
def listTools (s : ClientState) (discovery : Except String JSONRPCResponse) :
    Except String Json :=
  if !s.connected then
    .error "Not connected to MCP server. Call connect() first."
  else
    match discovery with
    | .error e => .error e
    | .ok resp =>
      match resp.error? with
      | some err =>
        .error ("Failed to list tools: " ++ err.message ++ " ("
          ++ toString err.code ++ ")")
      | none =>
        match jsGetProp resp.result? "tools" with
        | .error e => .error e
        | .ok none => .ok (Json.arr [])
        | .ok (some v) => .ok (if v.truthy then v else Json.arr [])

end MCPClient

namespace MCPClient

theorem lookup_map_keyed (g : String → PromiseState → PromiseState)
    (ps : List (String × PromiseState)) (id : String) :
    (ps.map (fun p => (p.1, g p.1 p.2))).lookup id = (ps.lookup id).map (g id) := by
  induction ps with
  | nil => rfl
  | cons p ps ih =>
    by_cases h : id = p.1
    · simp [List.lookup, h]
    · simp only [List.map_cons, List.lookup]
      rw [show (id == p.1) = false from beq_eq_false_iff_ne.mpr h]
      exact ih

/--
C5: on every client state — never connected, connected, or already closed —
`close()` never throws (it is a total state transformation), and afterwards
the pending-request table is empty, every request that was pending with an
unsettled promise has been rejected with the connection-closed failure (its
timer cleared with the entry), the background stream read is cancelled, and
the state is not-connected.
-/
theorem close_teardown (s : ClientState) :
    (close s).pending = [] ∧
    (close s).connected = false ∧
    (close s).sseActive = false ∧
    ∀ id ∈ s.pending, s.promises.lookup id = some .pending →
      (close s).promises.lookup id = some (.rejected "Connection closed") := by
  refine ⟨rfl, rfl, rfl, ?_⟩
  intro id hmem hlook
  show (s.promises.map (fun p =>
    (p.1, if p.1 ∈ s.pending then settleReject p.2 "Connection closed" else p.2))).lookup id
    = some (.rejected "Connection closed")
  rw [lookup_map_keyed (fun k v => if k ∈ s.pending then settleReject v "Connection closed" else v)
    s.promises id, hlook]
  simp [hmem, settleReject]

/-- Witness for `close_teardown` on a connected client with one pending request. -/
theorem close_teardown_witness :
    (close ⟨["req_1_7"], [("req_1_7", .pending)], 1, true, true⟩).pending = [] ∧
    (close ⟨["req_1_7"], [("req_1_7", .pending)], 1, true, true⟩).promises.lookup "req_1_7"
      = some (.rejected "Connection closed") := by
  refine ⟨(close_teardown ⟨["req_1_7"], [("req_1_7", .pending)], 1, true, true⟩).1, ?_⟩
  exact (close_teardown ⟨["req_1_7"], [("req_1_7", .pending)], 1, true, true⟩).2.2.2
    "req_1_7" (by decide) rfl

end MCPClient

namespace MCPClient

/--
C10: calling `connect()` on an already-connected client throws the
already-connected failure without performing any teardown: the returned
state is the input state itself, so the connected flag stays true, the
pending table is untouched, and the background stream is not cancelled.
-/
theorem connect_on_connected_noop (s : ClientState) (w : ConnectWorld) (now : Nat)
    (h : s.connected = true) :
    connect s w now = (s, .error "Already connected to MCP server") := by
  unfold connect
  rw [h]
  rfl

/-- Witness for `connect_on_connected_noop` on a concrete connected client. -/
theorem connect_on_connected_noop_witness :
    connect ⟨[], [], 0, true, true⟩
        ⟨.error "unreachable", .error "unreachable"⟩ 0 =
      (⟨[], [], 0, true, true⟩, .error "Already connected to MCP server") :=
  connect_on_connected_noop ⟨[], [], 0, true, true⟩
    ⟨.error "unreachable", .error "unreachable"⟩ 0 rfl

/--
C6: every failure during the `connect()` sequence — a thrown health-check
transport error, a non-ok health-check status, a rejected initialize
request, or an initialize protocol error — performs the full `close()`
teardown before the error is surfaced, so after a failed `connect()` the
instance is not-connected, holds zero pending entries, and has no live
stream.
-/
theorem connect_failure_teardown (s : ClientState) (w : ConnectWorld) (now : Nat)
    (e : String) (hnc : s.connected = false)
    (herr : (connect s w now).2 = .error e) :
    (connect s w now).1.connected = false ∧
    (connect s w now).1.pending = [] ∧
    (connect s w now).1.sseActive = false := by
  unfold connect at herr ⊢
  rw [hnc] at herr ⊢
  match hh : w.health with
  | .error e2 => exact ⟨rfl, rfl, rfl⟩
  | .ok probe =>
    simp only [hh] at herr ⊢
    by_cases hok : probe.ok
    · simp only [hok] at herr ⊢
      match hi : w.initResult with
      | .error e3 => exact ⟨rfl, rfl, rfl⟩
      | .ok resp =>
        simp only [hi] at herr ⊢
        match he : resp.error? with
        | some err => exact ⟨rfl, rfl, rfl⟩
        | none => simp [he] at herr
    · simp only [hok] at herr ⊢
      exact ⟨rfl, rfl, rfl⟩

/-- Witness for `connect_failure_teardown`: the health check of a client
with a live pending request throws. -/
theorem connect_failure_teardown_witness :
    (connect ⟨["req_1_7"], [("req_1_7", .pending)], 1, false, false⟩
        ⟨.error "fetch failed", .error "unused"⟩ 0).1.connected = false ∧
    (connect ⟨["req_1_7"], [("req_1_7", .pending)], 1, false, false⟩
        ⟨.error "fetch failed", .error "unused"⟩ 0).1.pending = [] ∧
    (connect ⟨["req_1_7"], [("req_1_7", .pending)], 1, false, false⟩
        ⟨.error "fetch failed", .error "unused"⟩ 0).1.sseActive = false :=
  connect_failure_teardown ⟨["req_1_7"], [("req_1_7", .pending)], 1, false, false⟩
    ⟨.error "fetch failed", .error "unused"⟩ 0 "fetch failed" rfl rfl

end MCPClient

namespace MCPClient

/--
C7: `listTools()` fails with the not-connected failure when the client is
not connected, fails with a diagnostic carrying the remote code and message
when the remote returns a protocol error, returns the advertised tool set
for every successful discovery response whose result carries a `tools`
field, and returns the empty set when the `tools` field is absent from the
result.
-/
theorem listTools_spec (s : ClientState) (d : Except String JSONRPCResponse) :
    (s.connected = false →
      listTools s d = .error "Not connected to MCP server. Call connect() first.") ∧
    (∀ resp err, s.connected = true → d = .ok resp → resp.error? = some err →
      listTools s d = .error ("Failed to list tools: " ++ err.message ++ " ("
        ++ toString err.code ++ ")")) ∧
    (∀ resp r ts, s.connected = true → d = .ok resp → resp.error? = none →
      resp.result? = some r → r.getProp "tools" = .ok (some (Json.arr ts)) →
      listTools s d = .ok (Json.arr ts)) ∧
    (∀ resp r, s.connected = true → d = .ok resp → resp.error? = none →
      resp.result? = some r → r.getProp "tools" = .ok none →
      listTools s d = .ok (Json.arr [])) := by
  refine ⟨?_, ?_, ?_, ?_⟩
  · intro h
    unfold listTools
    rw [h]
    rfl
  · intro resp err hc hd he
    unfold listTools
    rw [hc, hd]
    simp [he]
  · intro resp r ts hc hd he hr hp
    unfold listTools
    rw [hc, hd]
    simp only [he, jsGetProp, hr, hp, Bool.not_true, Bool.false_eq_true, if_false]
    rfl
  · intro resp r hc hd he hr hp
    unfold listTools
    rw [hc, hd]
    simp only [he, jsGetProp, hr, hp, Bool.not_true, Bool.false_eq_true, if_false]

/-- Witness for `listTools_spec`: each of the four clauses at concrete inputs. -/
theorem listTools_spec_witness :
    listTools ⟨[], [], 0, false, false⟩ (.error "ignored")
      = .error "Not connected to MCP server. Call connect() first." ∧
    listTools ⟨[], [], 0, true, true⟩
        (.ok ⟨"req_1_0", none, some ⟨0 - 32601, "Method not found", none⟩⟩)
      = .error ("Failed to list tools: Method not found ("
        ++ toString (0 - 32601 : Int) ++ ")") ∧
    listTools ⟨[], [], 0, true, true⟩
        (.ok ⟨"req_1_0", some (Json.obj [("tools", Json.arr [Json.str "t"])]), none⟩)
      = .ok (Json.arr [Json.str "t"]) ∧
    listTools ⟨[], [], 0, true, true⟩ (.ok ⟨"req_1_0", some (Json.obj []), none⟩)
      = .ok (Json.arr []) := by
  refine ⟨?_, ?_, ?_, ?_⟩
  · exact (listTools_spec ⟨[], [], 0, false, false⟩ (.error "ignored")).1 rfl
  · exact (listTools_spec ⟨[], [], 0, true, true⟩ _).2.1
      ⟨"req_1_0", none, some ⟨0 - 32601, "Method not found", none⟩⟩
      ⟨0 - 32601, "Method not found", none⟩ rfl rfl rfl
  · exact (listTools_spec ⟨[], [], 0, true, true⟩ _).2.2.1
      ⟨"req_1_0", some (Json.obj [("tools", Json.arr [Json.str "t"])]), none⟩
      (Json.obj [("tools", Json.arr [Json.str "t"])]) [Json.str "t"] rfl rfl rfl rfl rfl
  · exact (listTools_spec ⟨[], [], 0, true, true⟩ _).2.2.2
      ⟨"req_1_0", some (Json.obj []), none⟩ (Json.obj []) rfl rfl rfl rfl rfl

end MCPClient

namespace MCPClient

theorem lookup_rejectPromise_other (ps : List (String × PromiseState)) (tid id msg : String)
    (h : tid ≠ id) : (rejectPromise ps tid msg).lookup id = ps.lookup id := by
  unfold rejectPromise
  rw [lookup_map_keyed (fun k v => if k = tid then settleReject v msg else v) ps id]
  have : (fun v => if id = tid then settleReject v msg else v) = fun v => v := by
    funext v
    rw [if_neg (Ne.symm h)]
  rw [this]
  cases ps.lookup id <;> rfl

theorem lookup_resolvePromise_other (ps : List (String × PromiseState)) (tid id : String)
    (v : JSONRPCResponse) (h : tid ≠ id) :
    (resolvePromise ps tid v).lookup id = ps.lookup id := by
  unfold resolvePromise
  rw [lookup_map_keyed (fun k w => if k = tid then settleResolve w v else w) ps id]
  have : (fun w => if id = tid then settleResolve w v else w) = fun w => w := by
    funext w
    rw [if_neg (Ne.symm h)]
  rw [this]
  cases ps.lookup id <;> rfl

theorem lookup_rejectPromise_self (ps : List (String × PromiseState)) (id msg : String) :
    (rejectPromise ps id msg).lookup id = (ps.lookup id).map (fun v => settleReject v msg) := by
  unfold rejectPromise
  rw [lookup_map_keyed (fun k v => if k = id then settleReject v msg else v) ps id]
  have : (fun v => if id = id then settleReject v msg else v)
      = fun v => settleReject v msg := by
    funext v
    rw [if_pos rfl]
  rw [this]

theorem mem_filter_ne (l : List String) (tid id : String) (h : tid ≠ id) :
    id ∈ l.filter (fun x => x != tid) ↔ id ∈ l := by
  simp only [List.mem_filter, bne_iff_ne]
  exact ⟨fun x => x.1, fun x => ⟨x, Ne.symm h⟩⟩

theorem applyEvent_other (s : ClientState) (e : ClientEvent) (id : String)
    (h : e.targetId ≠ id) :
    (applyEvent s e).promises.lookup id = s.promises.lookup id ∧
    (id ∈ (applyEvent s e).pending ↔ id ∈ s.pending) := by
  cases e with
  | timerFire tid t =>
    simp only [ClientEvent.targetId] at h
    simp only [applyEvent]
    by_cases hm : tid ∈ s.pending
    · rw [if_pos hm]
      exact ⟨lookup_rejectPromise_other s.promises tid id _ h, mem_filter_ne s.pending tid id h⟩
    · rw [if_neg hm]
      exact ⟨rfl, Iff.rfl⟩
  | response tid body t =>
    simp only [ClientEvent.targetId] at h
    simp only [applyEvent]
    by_cases hm : tid ∈ s.pending
    · rw [if_pos hm]
      exact ⟨lookup_resolvePromise_other s.promises tid id body h, mem_filter_ne s.pending tid id h⟩
    · rw [if_neg hm]
      exact ⟨rfl, Iff.rfl⟩
  | postError tid msg t =>
    simp only [ClientEvent.targetId] at h
    simp only [applyEvent]
    exact ⟨lookup_rejectPromise_other s.promises tid id msg h, mem_filter_ne s.pending tid id h⟩

theorem runEvents_other (s : ClientState) (es : List ClientEvent) (id : String)
    (h : ∀ e ∈ es, e.targetId ≠ id) :
    (runEvents s es).promises.lookup id = s.promises.lookup id ∧
    (id ∈ (runEvents s es).pending ↔ id ∈ s.pending) := by
  induction es generalizing s with
  | nil => exact ⟨rfl, Iff.rfl⟩
  | cons e es ih =>
    have he := applyEvent_other s e id (h e (List.mem_cons_self e es))
    have hrest := ih (applyEvent s e) (fun x hx => h x (List.mem_cons_of_mem e hx))
    exact ⟨hrest.1.trans he.1, hrest.2.trans he.2⟩

theorem settleReject_of_ne_pending (st : PromiseState) (msg : String)
    (h : st ≠ .pending) : settleReject st msg = st := by
  cases st with
  | pending => exact absurd rfl h
  | resolved v => rfl
  | rejected m => rfl

theorem settleResolve_of_ne_pending (st : PromiseState) (v : JSONRPCResponse)
    (h : st ≠ .pending) : settleResolve st v = st := by
  cases st with
  | pending => exact absurd rfl h
  | resolved w => rfl
  | rejected m => rfl

theorem lookup_resolvePromise_self (ps : List (String × PromiseState)) (id : String)
    (v : JSONRPCResponse) :
    (resolvePromise ps id v).lookup id = (ps.lookup id).map (fun w => settleResolve w v) := by
  unfold resolvePromise
  rw [lookup_map_keyed (fun k w => if k = id then settleResolve w v else w) ps id]
  have : (fun w => if id = id then settleResolve w v else w)
      = fun w => settleResolve w v := by
    funext w
    rw [if_pos rfl]
  rw [this]

theorem applyEvent_settled (s : ClientState) (e : ClientEvent) (id : String)
    (st : PromiseState) (hst : st ≠ .pending)
    (hl : s.promises.lookup id = some st) (hnp : id ∉ s.pending) :
    (applyEvent s e).promises.lookup id = some st ∧ id ∉ (applyEvent s e).pending := by
  by_cases h : e.targetId = id
  · cases e with
    | timerFire tid t =>
      simp only [ClientEvent.targetId] at h
      subst h
      simp only [applyEvent]
      rw [if_neg hnp]
      exact ⟨hl, hnp⟩
    | response tid body t =>
      simp only [ClientEvent.targetId] at h
      subst h
      simp only [applyEvent]
      rw [if_neg hnp]
      exact ⟨hl, hnp⟩
    | postError tid msg t =>
      simp only [ClientEvent.targetId] at h
      subst h
      simp only [applyEvent]
      constructor
      · rw [lookup_rejectPromise_self s.promises tid msg, hl]
        simp [settleReject_of_ne_pending st msg hst]
      · intro hmem
        simp [List.mem_filter] at hmem
  · have := applyEvent_other s e id h
    exact ⟨this.1.trans hl, fun hm => hnp (this.2.mp hm)⟩

end MCPClient

namespace MCPClient

theorem runEvents_settled (s : ClientState) (es : List ClientEvent) (id : String)
    (st : PromiseState) (hst : st ≠ .pending)
    (hl : s.promises.lookup id = some st) (hnp : id ∉ s.pending) :
    (runEvents s es).promises.lookup id = some st ∧ id ∉ (runEvents s es).pending := by
  induction es generalizing s with
  | nil => exact ⟨hl, hnp⟩
  | cons e es ih =>
    have he := applyEvent_settled s e id st hst hl hnp
    exact ih (applyEvent s e) he.1 he.2

theorem lookup_append_right (ps qs : List (String × PromiseState)) (id : String)
    (h : ps.lookup id = none) : (ps ++ qs).lookup id = qs.lookup id := by
  induction ps with
  | nil => rfl
  | cons p ps ih =>
    simp only [List.lookup, List.cons_append] at h ⊢
    match hb : (id == p.1) with
    | true => rw [hb] at h; exact absurd h (by simp)
    | false =>
      rw [hb] at h
      simp only [hb]
      exact ih h

/--
C4: consider a request issued by `sendRequest` whose endpoint never
responds: no completion for its correlation id arrives before its deadline
timer fires, and the timer fires at a time no earlier than the configured
`requestTimeout` after the request was issued (the setTimeout guarantee).
Then the promise is still pending when the timer fires — so it is rejected
no earlier than the deadline — the rejection carries the timeout diagnostic
naming the configured duration, the entry is removed from the
pending-request table, and no later completion (a late response, a late
transport error, or a stray timer) ever changes the settled rejection or
revives the entry, so the promise is never resolved or rejected a second
time.
-/
theorem sendRequest_timeout_spec (s : ClientState) (t0 tf : Nat)
    (pre post : List ClientEvent)
    (hfresh : s.promises.lookup (sendRequestStart s t0).2 = none)
    (hpre : ∀ e ∈ pre, e.targetId ≠ (sendRequestStart s t0).2)
    (hdl : t0 + requestTimeout ≤ tf) :
    (runEvents (sendRequestStart s t0).1 pre).promises.lookup (sendRequestStart s t0).2
        = some .pending ∧
    (sendRequestStart s t0).2 ∈ (runEvents (sendRequestStart s t0).1 pre).pending ∧
    (runEvents (sendRequestStart s t0).1
        (pre ++ ClientEvent.timerFire (sendRequestStart s t0).2 tf :: post)).promises.lookup
        (sendRequestStart s t0).2
      = some (.rejected ("Request timeout after " ++ Nat.repr requestTimeout ++ "ms")) ∧
    (sendRequestStart s t0).2 ∉ (runEvents (sendRequestStart s t0).1
        (pre ++ ClientEvent.timerFire (sendRequestStart s t0).2 tf :: post)).pending := by
  set id := (sendRequestStart s t0).2 with hid
  have hstart1 : (sendRequestStart s t0).1.promises.lookup id = some .pending := by
    show (s.promises ++ [(id, PromiseState.pending)]).lookup id
      = some PromiseState.pending
    rw [lookup_append_right s.promises [(id, PromiseState.pending)] id hfresh]
    simp [List.lookup]
  have hstart2 : id ∈ (sendRequestStart s t0).1.pending := by
    show id ∈ s.pending ++ [id]
    simp
  have hpre1 := runEvents_other (sendRequestStart s t0).1 pre id hpre
  have hp1 : (runEvents (sendRequestStart s t0).1 pre).promises.lookup id
      = some .pending := hpre1.1.trans hstart1
  have hp2 : id ∈ (runEvents (sendRequestStart s t0).1 pre).pending :=
    hpre1.2.mpr hstart2
  refine ⟨hp1, hp2, ?_⟩
  have hsplitev : runEvents (sendRequestStart s t0).1
      (pre ++ ClientEvent.timerFire id tf :: post)
      = runEvents (applyEvent (runEvents (sendRequestStart s t0).1 pre)
          (ClientEvent.timerFire id tf)) post := by
    unfold runEvents
    rw [List.foldl_append, List.foldl_cons]
  rw [hsplitev]
  set S1 := runEvents (sendRequestStart s t0).1 pre with hS1
  have hfire : (applyEvent S1 (ClientEvent.timerFire id tf)).promises.lookup id
      = some (.rejected ("Request timeout after " ++ Nat.repr requestTimeout ++ "ms")) ∧
      id ∉ (applyEvent S1 (ClientEvent.timerFire id tf)).pending := by
    simp only [applyEvent]
    rw [if_pos hp2]
    constructor
    · rw [lookup_rejectPromise_self S1.promises id _, hp1]
      rfl
    · simp [List.mem_filter]
  exact runEvents_settled _ post id _ (by intro hx; exact absurd hx (by simp))
    hfire.1 hfire.2


/--
Witness for `sendRequest_timeout_spec`: a fresh client issues one request
at time 0; nothing arrives before the timer fires at the 10000ms deadline;
a late response for the same correlation id arrives afterwards and changes
nothing.
-/
theorem sendRequest_timeout_spec_witness :
    (runEvents (sendRequestStart ⟨[], [], 0, false, false⟩ 0).1 []).promises.lookup
        (sendRequestStart ⟨[], [], 0, false, false⟩ 0).2 = some .pending ∧
    (sendRequestStart ⟨[], [], 0, false, false⟩ 0).2 ∈
      (runEvents (sendRequestStart ⟨[], [], 0, false, false⟩ 0).1 []).pending ∧
    (runEvents (sendRequestStart ⟨[], [], 0, false, false⟩ 0).1
        ([] ++ ClientEvent.timerFire (sendRequestStart ⟨[], [], 0, false, false⟩ 0).2 10000
          :: [ClientEvent.response (sendRequestStart ⟨[], [], 0, false, false⟩ 0).2
                ⟨"req_1_0", none, none⟩ 20000])).promises.lookup
        (sendRequestStart ⟨[], [], 0, false, false⟩ 0).2
      = some (.rejected ("Request timeout after " ++ Nat.repr requestTimeout ++ "ms")) ∧
    (sendRequestStart ⟨[], [], 0, false, false⟩ 0).2 ∉
      (runEvents (sendRequestStart ⟨[], [], 0, false, false⟩ 0).1
        ([] ++ ClientEvent.timerFire (sendRequestStart ⟨[], [], 0, false, false⟩ 0).2 10000
          :: [ClientEvent.response (sendRequestStart ⟨[], [], 0, false, false⟩ 0).2
                ⟨"req_1_0", none, none⟩ 20000])).pending :=
  sendRequest_timeout_spec ⟨[], [], 0, false, false⟩ 0 10000 []
    [ClientEvent.response (sendRequestStart ⟨[], [], 0, false, false⟩ 0).2
      ⟨"req_1_0", none, none⟩ 20000]
    rfl (by intro e he; cases he) (by decide)

end MCPClient

/-- Fuel-free decimal rendering of a natural number, most significant digit
first; agrees with the digit list underlying `Nat.repr`. -/
def rdigits (n : Nat) : List Char :=
  if h : n < 10 then [Nat.digitChar n]
  else rdigits (n / 10) ++ [Nat.digitChar (n % 10)]
termination_by n
decreasing_by
  exact Nat.div_lt_self (by omega) (by omega)

theorem digitChar_ne_underscore (k : Nat) : Nat.digitChar k ≠ '_' := by
  rcases Nat.lt_or_ge k 16 with h | h
  · interval_cases k <;> decide
  · have hbig : 16 ≤ k := h
    have h0 : ¬ k = 0 := by omega
    have h1 : ¬ k = 1 := by omega
    have h2 : ¬ k = 2 := by omega
    have h3 : ¬ k = 3 := by omega
    have h4 : ¬ k = 4 := by omega
    have h5 : ¬ k = 5 := by omega
    have h6 : ¬ k = 6 := by omega
    have h7 : ¬ k = 7 := by omega
    have h8 : ¬ k = 8 := by omega
    have h9 : ¬ k = 9 := by omega
    have h10 : ¬ k = 10 := by omega
    have h11 : ¬ k = 11 := by omega
    have h12 : ¬ k = 12 := by omega
    have h13 : ¬ k = 13 := by omega
    have h14 : ¬ k = 14 := by omega
    have h15 : ¬ k = 15 := by omega
    unfold Nat.digitChar
    rw [if_neg h0, if_neg h1, if_neg h2, if_neg h3, if_neg h4, if_neg h5, if_neg h6, if_neg h7, if_neg h8, if_neg h9, if_neg h10, if_neg h11, if_neg h12, if_neg h13, if_neg h14, if_neg h15]
    decide

theorem digitChar_toNat (k : Nat) (h : k < 10) : (Nat.digitChar k).toNat = 48 + k := by
  interval_cases k <;> rfl

theorem rdigits_no_underscore (n : Nat) : '_' ∉ rdigits n := by
  induction n using Nat.strong_induction_on with
  | _ n ih =>
    unfold rdigits
    by_cases h : n < 10
    · simp only [h, dif_pos]
      intro hm
      rw [List.mem_singleton] at hm
      exact digitChar_ne_underscore n hm.symm
    · simp only [h, dif_neg, not_false_iff]
      intro hm
      rw [List.mem_append] at hm
      cases hm with
      | inl hm => exact ih (n / 10) (Nat.div_lt_self (by omega) (by omega)) hm
      | inr hm =>
        rw [List.mem_singleton] at hm
        exact digitChar_ne_underscore (n % 10) hm.symm

theorem toDigitsCore_eq_rdigits (fuel : Nat) :
    ∀ n ds, n < fuel → Nat.toDigitsCore 10 fuel n ds = rdigits n ++ ds := by
  induction fuel with
  | zero => intro n ds h; omega
  | succ fuel ih =>
    intro n ds h
    show (if n / 10 = 0 then Nat.digitChar (n % 10) :: ds
      else Nat.toDigitsCore 10 fuel (n / 10) (Nat.digitChar (n % 10) :: ds))
      = rdigits n ++ ds
    by_cases h10 : n / 10 = 0
    · have hn : n < 10 := by omega
      rw [if_pos h10]
      unfold rdigits
      simp only [hn, dif_pos]
      rw [Nat.mod_eq_of_lt hn]
      rfl
    · have hlt : n / 10 < n := Nat.div_lt_self (by omega) (by omega)
      rw [if_neg h10, ih (n / 10) (Nat.digitChar (n % 10) :: ds) (by omega)]
      conv_rhs => rw [rdigits]
      have hn : ¬ n < 10 := by omega
      simp [hn]

theorem repr_data (n : Nat) : (Nat.repr n).data = rdigits n := by
  show (Nat.toDigits 10 n).asString.data = rdigits n
  unfold Nat.toDigits
  rw [toDigitsCore_eq_rdigits (n + 1) n [] (Nat.lt_succ_self n)]
  simp [List.asString]

/-- Value of a most-significant-first decimal digit string under a foldl
accumulator, used to invert `rdigits`. -/
def digitsVal (l : List Char) (a : Nat) : Nat :=
  l.foldl (fun acc c => acc * 10 + (c.toNat - 48)) a

theorem digitsVal_rdigits (n : Nat) :
    ∀ a, digitsVal (rdigits n) a = a * 10 ^ (rdigits n).length + n := by
  induction n using Nat.strong_induction_on with
  | _ n ih =>
    intro a
    by_cases h : n < 10
    · rw [show rdigits n = [Nat.digitChar n] by rw [rdigits]; simp [h]]
      show a * 10 + ((Nat.digitChar n).toNat - 48) = a * 10 ^ 1 + n
      rw [digitChar_toNat n h]
      omega
    · have hlt : n / 10 < n := Nat.div_lt_self (by omega) (by omega)
      have hstep : rdigits n = rdigits (n / 10) ++ [Nat.digitChar (n % 10)] := by
        rw [rdigits]; simp [h]
      rw [hstep]
      unfold digitsVal
      rw [List.foldl_append]
      show digitsVal [Nat.digitChar (n % 10)] (digitsVal (rdigits (n / 10)) a)
        = a * 10 ^ (rdigits (n / 10) ++ [Nat.digitChar (n % 10)]).length + n
      rw [ih (n / 10) hlt a]
      show (a * 10 ^ (rdigits (n / 10)).length + n / 10) * 10
          + ((Nat.digitChar (n % 10)).toNat - 48)
        = a * 10 ^ (rdigits (n / 10) ++ [Nat.digitChar (n % 10)]).length + n
      rw [digitChar_toNat (n % 10) (Nat.mod_lt n (by omega)), List.length_append,
        List.length_singleton, pow_succ]
      have hdm : 10 * (n / 10) + n % 10 = n := Nat.div_add_mod n 10
      have hx : (a * 10 ^ (rdigits (n / 10)).length + n / 10) * 10
          = a * (10 ^ (rdigits (n / 10)).length * 10) + n / 10 * 10 := by ring
      omega

theorem rdigits_inj (m n : Nat) (h : rdigits m = rdigits n) : m = n := by
  have hm := digitsVal_rdigits m 0
  have hn := digitsVal_rdigits n 0
  rw [h] at hm
  rw [hm] at hn
  simpa using hn

theorem append_sep_inj (l1 : List Char) :
    ∀ l2 m1 m2 : List Char, l1 ++ '_' :: m1 = l2 ++ '_' :: m2 →
      '_' ∉ l1 → '_' ∉ l2 → l1 = l2 ∧ m1 = m2 := by
  induction l1 with
  | nil =>
    intro l2 m1 m2 h h1 h2
    cases l2 with
    | nil => simpa using h
    | cons d l2 =>
      rw [List.nil_append, List.cons_append] at h
      have hd := (List.cons.injEq _ _ _ _).mp h
      exact absurd (hd.1.symm ▸ List.mem_cons_self d l2) h2
  | cons c l1 ih =>
    intro l2 m1 m2 h h1 h2
    cases l2 with
    | nil =>
      rw [List.cons_append, List.nil_append] at h
      have hd := (List.cons.injEq _ _ _ _).mp h
      exact absurd (hd.1 ▸ List.mem_cons_self c l1) h1
    | cons d l2 =>
      rw [List.cons_append, List.cons_append] at h
      have hd := (List.cons.injEq _ _ _ _).mp h
      have h1t : '_' ∉ l1 := fun hx => h1 (List.mem_cons_of_mem c hx)
      have h2t : '_' ∉ l2 := fun hx => h2 (List.mem_cons_of_mem d hx)
      have := ih l2 m1 m2 hd.2 h1t h2t
      exact ⟨by rw [hd.1, this.1], this.2⟩

namespace MCPClient

theorem generateRequestId_counter_inj (c1 t1 c2 t2 : Nat)
    (h : generateRequestId c1 t1 = generateRequestId c2 t2) : c1 = c2 := by
  unfold generateRequestId at h
  have hdata := congrArg String.data h
  simp only [String.data_append, repr_data] at hdata
  simp only [List.append_assoc, List.cons_append, List.nil_append] at hdata
  have h4 : rdigits (c1 + 1) ++ '_' :: rdigits t1
      = rdigits (c2 + 1) ++ '_' :: rdigits t2 := by
    simpa using hdata
  have := append_sep_inj (rdigits (c1 + 1)) (rdigits (c2 + 1)) (rdigits t1) (rdigits t2)
    h4 (rdigits_no_underscore (c1 + 1)) (rdigits_no_underscore (c2 + 1))
  have hc := rdigits_inj (c1 + 1) (c2 + 1) this.1
  omega

end MCPClient

namespace MCPClient

/-- Issue one request per listed timestamp, in order, returning the final
state and the minted correlation ids. -/
def issueAll (s : ClientState) : List Nat → ClientState × List String
  | [] => (s, [])
  | t :: ts =>
    let r := sendRequestStart s t
    let rest := issueAll r.1 ts
    (rest.1, r.2 :: rest.2)

theorem issueAll_mem_ids (ts : List Nat) :
    ∀ s id, id ∈ (issueAll s ts).2 →
      ∃ c t, s.requestIdCounter ≤ c ∧ id = generateRequestId c t := by
  induction ts with
  | nil => intro s id h; cases h
  | cons t ts ih =>
    intro s id h
    rw [show (issueAll s (t :: ts)).2
        = (sendRequestStart s t).2 :: (issueAll (sendRequestStart s t).1 ts).2 from rfl] at h
    rcases List.mem_cons.mp h with h | h
    · exact ⟨s.requestIdCounter, t, Nat.le_refl _, h⟩
    · rcases ih (sendRequestStart s t).1 id h with ⟨c, t2, hc, he⟩
      exact ⟨c, t2, by
        have : (sendRequestStart s t).1.requestIdCounter = s.requestIdCounter + 1 := rfl
        omega, he⟩

theorem issueAll_pairwise (ts : List Nat) :
    ∀ s, (issueAll s ts).2.Pairwise (· ≠ ·) := by
  induction ts with
  | nil => intro s; exact List.Pairwise.nil
  | cons t ts ih =>
    intro s
    rw [show (issueAll s (t :: ts)).2
        = (sendRequestStart s t).2 :: (issueAll (sendRequestStart s t).1 ts).2 from rfl]
    refine List.Pairwise.cons ?_ (ih (sendRequestStart s t).1)
    intro id hid heq
    rcases issueAll_mem_ids ts (sendRequestStart s t).1 id hid with ⟨c, t2, hc, he⟩
    have hcount : (sendRequestStart s t).1.requestIdCounter = s.requestIdCounter + 1 := rfl
    rw [hcount] at hc
    have : s.requestIdCounter = c :=
      generateRequestId_counter_inj s.requestIdCounter t c t2 (heq.trans he)
    omega

theorem issueAll_state (ts : List Nat) :
    ∀ s, (issueAll s ts).1.pending = s.pending ++ (issueAll s ts).2 ∧
      (issueAll s ts).1.promises
        = s.promises ++ (issueAll s ts).2.map (fun i => (i, PromiseState.pending)) := by
  induction ts with
  | nil => intro s; simp [issueAll]
  | cons t ts ih =>
    intro s
    have hr := ih (sendRequestStart s t).1
    have hp : (sendRequestStart s t).1.pending
        = s.pending ++ [(sendRequestStart s t).2] := rfl
    have hq : (sendRequestStart s t).1.promises
        = s.promises ++ [((sendRequestStart s t).2, PromiseState.pending)] := rfl
    constructor
    · show (issueAll (sendRequestStart s t).1 ts).1.pending
        = s.pending ++ ((sendRequestStart s t).2 :: (issueAll (sendRequestStart s t).1 ts).2)
      rw [hr.1, hp]
      simp
    · show (issueAll (sendRequestStart s t).1 ts).1.promises
        = s.promises ++ ((sendRequestStart s t).2
            :: (issueAll (sendRequestStart s t).1 ts).2).map (fun i => (i, PromiseState.pending))
      rw [hr.2, hq]
      simp

theorem lookup_const_pending (ids : List String) (id : String) (h : id ∈ ids) :
    (ids.map (fun i => (i, PromiseState.pending))).lookup id = some PromiseState.pending := by
  induction ids with
  | nil => cases h
  | cons i ids ih =>
    rcases List.mem_cons.mp h with h | h
    · subst h
      simp [List.lookup]
    · by_cases he : id = i
      · subst he
        simp [List.lookup]
      · simp only [List.map_cons, List.lookup]
        rw [show (id == i) = false from beq_eq_false_iff_ne.mpr he]
        exact ih h

end MCPClient

namespace MCPClient

theorem resolve_each (evs : List (String × JSONRPCResponse)) :
    ∀ S : ClientState,
      (evs.map Prod.fst).Pairwise (· ≠ ·) →
      (∀ p ∈ evs, p.1 ∈ S.pending ∧ S.promises.lookup p.1 = some .pending) →
      ∀ p ∈ evs,
        (runEvents S (evs.map (fun q => ClientEvent.response q.1 q.2 0))).promises.lookup p.1
          = some (.resolved p.2) := by
  induction evs with
  | nil => intro S _ _ p hp; cases hp
  | cons q evs ih =>
    intro S hdist hin p hp
    have hq := hin q (List.mem_cons_self q evs)
    have hS1 : runEvents S ((q :: evs).map (fun r => ClientEvent.response r.1 r.2 0))
        = runEvents (applyEvent S (ClientEvent.response q.1 q.2 0))
            (evs.map (fun r => ClientEvent.response r.1 r.2 0)) := rfl
    set S1 := applyEvent S (ClientEvent.response q.1 q.2 0) with hS1def
    have happ : S1.promises.lookup q.1 = some (.resolved q.2) ∧ q.1 ∉ S1.pending := by
      rw [hS1def]
      simp only [applyEvent]
      rw [if_pos hq.1]
      constructor
      · rw [lookup_resolvePromise_self S.promises q.1 q.2, hq.2]
        rfl
      · simp [List.mem_filter]
    have hdt : (evs.map Prod.fst).Pairwise (· ≠ ·) := (List.pairwise_cons.mp hdist).2
    have hhd : ∀ r ∈ evs, q.1 ≠ r.1 := by
      intro r hr
      exact (List.pairwise_cons.mp hdist).1 r.1 (List.mem_map_of_mem Prod.fst hr)
    have hin1 : ∀ r ∈ evs, r.1 ∈ S1.pending ∧ S1.promises.lookup r.1 = some .pending := by
      intro r hr
      have hrS := hin r (List.mem_cons_of_mem q hr)
      have hne : q.1 ≠ r.1 := hhd r hr
      rw [hS1def]
      simp only [applyEvent]
      rw [if_pos hq.1]
      exact ⟨(mem_filter_ne S.pending q.1 r.1 hne).mpr hrS.1,
        (lookup_resolvePromise_other S.promises q.1 r.1 q.2 hne).trans hrS.2⟩
    rw [hS1]
    rcases List.mem_cons.mp hp with hp | hp
    · subst hp
      exact (runEvents_settled S1 (evs.map (fun r => ClientEvent.response r.1 r.2 0))
        p.1 (.resolved p.2) (by intro hx; cases hx) happ.1 happ.2).1
    · exact ih S1 hdt hin1 p hp

/--
C8: on one client instance, the correlation ids minted by
`generateRequestId` for any sequence of concurrently issued requests are
pairwise distinct (the per-instance counter increases strictly), and when
the responses complete in an arbitrary order — each response carrying the
id of its own request, as the JSON-RPC transport guarantees — every
request promise resolves with exactly the response whose id matches its
own correlation id.
-/
theorem correlation_spec (s : ClientState) (ts : List Nat)
    (hpend : s.pending = []) (hprom : s.promises = []) :
    (issueAll s ts).2.Pairwise (· ≠ ·) ∧
    ∀ evs : List (String × JSONRPCResponse),
      (evs.map Prod.fst).Perm (issueAll s ts).2 →
      (∀ p ∈ evs, p.2.id = p.1) →
      ∀ p ∈ evs,
        p.2.id = p.1 ∧
        (runEvents (issueAll s ts).1
          (evs.map (fun q => ClientEvent.response q.1 q.2 0))).promises.lookup p.1
          = some (.resolved p.2) := by
  refine ⟨issueAll_pairwise ts s, ?_⟩
  intro evs hperm hmatch p hp
  refine ⟨hmatch p hp, ?_⟩
  have hids := issueAll_pairwise ts s
  have hdist : (evs.map Prod.fst).Pairwise (· ≠ ·) :=
    (List.Perm.pairwise_iff (fun h => Ne.symm h) hperm).mpr hids
  have hstate := issueAll_state ts s
  have hin : ∀ q ∈ evs, q.1 ∈ (issueAll s ts).1.pending ∧
      (issueAll s ts).1.promises.lookup q.1 = some .pending := by
    intro q hq
    have hqid : q.1 ∈ (issueAll s ts).2 :=
      hperm.mem_iff.mp (List.mem_map_of_mem Prod.fst hq)
    constructor
    · rw [hstate.1, hpend]
      simpa using hqid
    · rw [hstate.2, hprom]
      rw [List.nil_append]
      exact lookup_const_pending (issueAll s ts).2 q.1 hqid
  exact resolve_each evs (issueAll s ts).1 hdist hin p hp

end MCPClient

namespace MCPClient

/-- Witness for `correlation_spec`: two requests issued at times 3 and 4 on
a fresh client; the responses arrive in reversed order and each promise
resolves with the response carrying its own id. -/
theorem correlation_spec_witness :
    (issueAll ⟨[], [], 0, false, false⟩ [3, 4]).2.Pairwise (· ≠ ·) ∧
    (runEvents (issueAll ⟨[], [], 0, false, false⟩ [3, 4]).1
        ([(("req_2_4" : String), (⟨"req_2_4", none, none⟩ : JSONRPCResponse)),
          ("req_1_3", ⟨"req_1_3", none, none⟩)].map
            (fun q => ClientEvent.response q.1 q.2 0))).promises.lookup "req_2_4"
      = some (.resolved ⟨"req_2_4", none, none⟩) ∧
    (runEvents (issueAll ⟨[], [], 0, false, false⟩ [3, 4]).1
        ([(("req_2_4" : String), (⟨"req_2_4", none, none⟩ : JSONRPCResponse)),
          ("req_1_3", ⟨"req_1_3", none, none⟩)].map
            (fun q => ClientEvent.response q.1 q.2 0))).promises.lookup "req_1_3"
      = some (.resolved ⟨"req_1_3", none, none⟩) := by
  have h := correlation_spec ⟨[], [], 0, false, false⟩ [3, 4] rfl rfl
  have h2 := h.2
    [(("req_2_4" : String), (⟨"req_2_4", none, none⟩ : JSONRPCResponse)),
      ("req_1_3", ⟨"req_1_3", none, none⟩)]
    (by decide)
    (by
      intro p hp
      rcases List.mem_cons.mp hp with hp | hp
      · subst hp; rfl
      · rcases List.mem_cons.mp hp with hp | hp
        · subst hp; rfl
        · cases hp)
  refine ⟨h.1, ?_, ?_⟩
  · exact (h2 ("req_2_4", ⟨"req_2_4", none, none⟩) (List.mem_cons_self _ _)).2
  · exact (h2 ("req_1_3", ⟨"req_1_3", none, none⟩)
      (List.mem_cons_of_mem _ (List.mem_cons_self _ _))).2

end MCPClient

mutual

/-- JavaScript string interpolation of a parsed JSON value. -/
def jsDisplay : Json → String
  | .null => "null"
  | .bool b => if b then "true" else "false"
  | .num n => toString n
  | .str s => s
  | .arr es => String.intercalate "," (jsDisplayList es)
  | .obj _ => "[object Object]"

/-- Interpolations of a list of values, elementwise. -/
def jsDisplayList : List Json → List String
  | [] => []
  | j :: js => jsDisplay j :: jsDisplayList js

end

/-- Interpolation of a possibly-undefined value. -/
def jsDisplayOpt : Option Json → String
  | none => "undefined"
  | some j => jsDisplay j

/-- One content item of a tool result: its type tag and its text payload. -/
structure ToolContent where
  ctype : String
  text : String

/-- The result envelope of a tool invocation. -/
structure MCPToolResult where
  content : List ToolContent

namespace Workflow

/-- The state carried by a `step` progress event. -/
inductive StepState where
  | running
  | success
  | error

/-- The overall workflow state carried by a `status` progress event. -/
inductive StatusState where
  | idle
  | running
  | completed
  | error

/-- The payload attached to a `step` event: the object literal with the
customer email, or the object literal with the send confirmation message. -/
inductive StepData where
  | emailData (email : Option Json)
  | messageData (message : Option Json)

/--
The progress event union written to the outbound SSE stream by the
workflow route.  Every variant carries the `Date.now()` timestamp taken at
its creation.  The `details` member of the `error` variant (a stack trace)
is outside the model.
-/
inductive AgentEvent where
  | status (state : StatusState) (message : Option String) (ts : Nat)
  | step (id : String) (title : String) (state : StepState) (ts : Nat)
      (data : Option StepData)
  | result (ts : Nat) (orderId : String) (email : Option Json)
      (emailSent : Option Bool) (message : String)
  | error (ts : Nat) (message : String)

/--
The remote outcomes observed by one workflow run: whether each client
connect resolves or throws, what each tool call returns or throws, and how
`JSON.parse` decodes each text payload.
-/
structure WorkflowWorld where
  crmConnect : Except String Unit
  crmCall : Except String MCPToolResult
  emailConnect : Except String Unit
  emailCall : Except String MCPToolResult
  jsonParse : String → Except String Json

end Workflow

namespace Workflow

/--
Embedding of the `try` block of the workflow route `POST` handler.  Events
are produced in source order; `Date.now()` is modelled as reading the call
sequence `now` at an increasing call index, which is returned alongside so
the `catch` block can continue the sequence.  The result records the
emitted events, the next `Date.now()` call index, and whether the block
completed or threw.
-/
def runTry (w : WorkflowWorld) (orderId : String) (now : Nat → Nat) :
    List AgentEvent × Nat × Except String Unit :=
  let e0 := AgentEvent.status .running none (now 0)
  let connectCrmId := "connect-crm-" ++ Nat.repr (now 1)
  let e1 := AgentEvent.step connectCrmId "Connecting to CRM server..." .running (now 2) none
  match w.crmConnect with
  | .error msg => ([e0, e1], 3, .error msg)
  | .ok _ =>
    let e2 := AgentEvent.step connectCrmId "Connected to CRM server" .success (now 3) none
    let fetchEmailId := "fetch-email-" ++ Nat.repr (now 4)
    let e3 := AgentEvent.step fetchEmailId
      ("Fetching customer email for order #" ++ orderId ++ "...") .running (now 5) none
    match w.crmCall with
    | .error msg => ([e0, e1, e2, e3], 6, .error msg)
    | .ok crmResult =>
      match crmResult.content with
      | [] => ([e0, e1, e2, e3], 6,
          .error "TypeError: cannot read properties of undefined (reading text)")
      | c :: _ =>
        match w.jsonParse c.text with
        | .error msg => ([e0, e1, e2, e3], 6, .error msg)
        | .ok emailData =>
          match emailData.getProp "email" with
          | .error msg => ([e0, e1, e2, e3], 6, .error msg)
          | .ok customerEmail =>
            if jsTruthy customerEmail = false then
              ([e0, e1, e2, e3], 6, .error "Customer not found for this order ID")
            else
              let e4 := AgentEvent.step fetchEmailId
                ("Found customer email: " ++ jsDisplayOpt customerEmail) .success (now 6)
                (some (StepData.emailData customerEmail))
              let e5 := AgentEvent.result (now 7) orderId customerEmail (some false)
                "Customer email retrieved"
              let connectEmailId := "connect-email-" ++ Nat.repr (now 8)
              let e6 := AgentEvent.step connectEmailId "Connecting to Email server..."
                .running (now 9) none
              match w.emailConnect with
              | .error msg => ([e0, e1, e2, e3, e4, e5, e6], 10, .error msg)
              | .ok _ =>
                let e7 := AgentEvent.step connectEmailId "Connected to Email server"
                  .success (now 10) none
                let sendEmailId := "send-email-" ++ Nat.repr (now 11)
                let e8 := AgentEvent.step sendEmailId
                  "Sending shipping confirmation email..." .running (now 12) none
                match w.emailCall with
                | .error msg => ([e0, e1, e2, e3, e4, e5, e6, e7, e8], 13, .error msg)
                | .ok emailResult =>
                  match emailResult.content with
                  | [] => ([e0, e1, e2, e3, e4, e5, e6, e7, e8], 13,
                      .error "TypeError: cannot read properties of undefined (reading text)")
                  | c2 :: _ =>
                    match w.jsonParse c2.text with
                    | .error msg =>
                      ([e0, e1, e2, e3, e4, e5, e6, e7, e8], 13, .error msg)
                    | .ok emailResponse =>
                      match emailResponse.getProp "ok" with
                      | .error msg =>
                        ([e0, e1, e2, e3, e4, e5, e6, e7, e8], 13, .error msg)
                      | .ok okVal =>
                        if jsTruthy okVal = false then
                          ([e0, e1, e2, e3, e4, e5, e6, e7, e8], 13,
                            .error "Failed to send shipping confirmation")
                        else
                          match emailResponse.getProp "message" with
                          | .error msg =>
                            ([e0, e1, e2, e3, e4, e5, e6, e7, e8], 13, .error msg)
                          | .ok msgVal =>
                            let e9 := AgentEvent.step sendEmailId
                              ("Shipping confirmation sent: " ++ jsDisplayOpt msgVal)
                              .success (now 13) (some (StepData.messageData msgVal))
                            let e10 := AgentEvent.result (now 14) orderId customerEmail
                              (some true) "Order processing completed successfully"
                            let e11 := AgentEvent.status .completed none (now 15)
                            ([e0, e1, e2, e3, e4, e5, e6, e7, e8, e9, e10, e11], 16, .ok ())

/--
Embedding of the whole `POST` stream body: run the `try` block; on a
thrown failure the `catch` block appends one `error` event carrying the
failure message and one `status` event in the `error` state, in that
order.  (The `finally` block closes the two clients and the stream
controller and emits nothing.)
-/
def runWorkflow (w : WorkflowWorld) (orderId : String) (now : Nat → Nat) :
    List AgentEvent :=
  match runTry w orderId now with
  | (es, _, .ok _) => es
  | (es, k, .error msg) =>
    es ++ [AgentEvent.error (now k) msg,
      AgentEvent.status .error (some msg) (now (k + 1))]

end Workflow

namespace Workflow

/--
C3: for a successful two-server run — CRM connect and lookup succeed, the
parsed lookup result carries a truthy email, email-server connect succeeds,
and the parsed send result is accepted — the event sequence written to the
outbound stream is exactly: status(running), step(connect-A, running),
step(connect-A, success), step(call-A, running), step(call-A, success),
result(partial), step(connect-B, running), step(connect-B, success),
step(call-B, running), step(call-B, success), result(final),
status(completed), in that relative order with no other events interleaved.
-/
theorem success_event_sequence (w : WorkflowWorld) (orderId : String) (now : Nat → Nat)
    (res res2 : MCPToolResult) (c : ToolContent) (cs : List ToolContent)
    (c2 : ToolContent) (cs2 : List ToolContent) (j j2 e o : Json) (m : Option Json)
    (hcc : w.crmConnect = .ok ())
    (hcr : w.crmCall = .ok res) (hcont : res.content = c :: cs)
    (hjp : w.jsonParse c.text = .ok j)
    (hemail : j.getProp "email" = .ok (some e)) (htr : e.truthy = true)
    (hec : w.emailConnect = .ok ())
    (her : w.emailCall = .ok res2) (hcont2 : res2.content = c2 :: cs2)
    (hjp2 : w.jsonParse c2.text = .ok j2)
    (hok : j2.getProp "ok" = .ok (some o)) (hot : o.truthy = true)
    (hmsg : j2.getProp "message" = .ok m) :
    runWorkflow w orderId now =
      [AgentEvent.status .running none (now 0),
       AgentEvent.step ("connect-crm-" ++ Nat.repr (now 1)) "Connecting to CRM server..."
         .running (now 2) none,
       AgentEvent.step ("connect-crm-" ++ Nat.repr (now 1)) "Connected to CRM server"
         .success (now 3) none,
       AgentEvent.step ("fetch-email-" ++ Nat.repr (now 4))
         ("Fetching customer email for order #" ++ orderId ++ "...") .running (now 5) none,
       AgentEvent.step ("fetch-email-" ++ Nat.repr (now 4))
         ("Found customer email: " ++ jsDisplay e) .success (now 6)
         (some (StepData.emailData (some e))),
       AgentEvent.result (now 7) orderId (some e) (some false) "Customer email retrieved",
       AgentEvent.step ("connect-email-" ++ Nat.repr (now 8)) "Connecting to Email server..."
         .running (now 9) none,
       AgentEvent.step ("connect-email-" ++ Nat.repr (now 8)) "Connected to Email server"
         .success (now 10) none,
       AgentEvent.step ("send-email-" ++ Nat.repr (now 11))
         "Sending shipping confirmation email..." .running (now 12) none,
       AgentEvent.step ("send-email-" ++ Nat.repr (now 11))
         ("Shipping confirmation sent: " ++ jsDisplayOpt m) .success (now 13)
         (some (StepData.messageData m)),
       AgentEvent.result (now 14) orderId (some e) (some true)
         "Order processing completed successfully",
       AgentEvent.status .completed none (now 15)] := by
  have ht1 : jsTruthy (some e) = true := htr
  have ht2 : jsTruthy (some o) = true := hot
  simp only [runWorkflow, runTry, hcc, hcr, hcont, hjp, hemail, ht1, hec, her,
    hcont2, hjp2, hok, hmsg, ht2, Bool.true_eq_false, if_false]
  rfl

end Workflow

namespace Workflow

/-- Witness for `success_event_sequence`: a concrete happy-path run for
order `XYZ-789` with email `alice@example.com` and an accepting email
server, under the identity clock. -/
theorem success_event_sequence_witness :
    runWorkflow
      ⟨.ok (), .ok ⟨[⟨"text", "E1"⟩]⟩, .ok (), .ok ⟨[⟨"text", "E2"⟩]⟩,
        fun s =>
          if s = "E1" then .ok (Json.obj [("email", Json.str "alice@example.com")])
          else if s = "E2" then
            .ok (Json.obj [("ok", Json.bool true), ("message", Json.str "sent")])
          else .error "bad json"⟩
      "XYZ-789" (fun k => k) =
      [AgentEvent.status .running none 0,
       AgentEvent.step "connect-crm-1" "Connecting to CRM server..." .running 2 none,
       AgentEvent.step "connect-crm-1" "Connected to CRM server" .success 3 none,
       AgentEvent.step "fetch-email-4" "Fetching customer email for order #XYZ-789..."
         .running 5 none,
       AgentEvent.step "fetch-email-4" "Found customer email: alice@example.com"
         .success 6 (some (StepData.emailData (some (Json.str "alice@example.com")))),
       AgentEvent.result 7 "XYZ-789" (some (Json.str "alice@example.com")) (some false)
         "Customer email retrieved",
       AgentEvent.step "connect-email-8" "Connecting to Email server..." .running 9 none,
       AgentEvent.step "connect-email-8" "Connected to Email server" .success 10 none,
       AgentEvent.step "send-email-11" "Sending shipping confirmation email..."
         .running 12 none,
       AgentEvent.step "send-email-11" "Shipping confirmation sent: sent" .success 13
         (some (StepData.messageData (some (Json.str "sent")))),
       AgentEvent.result 14 "XYZ-789" (some (Json.str "alice@example.com")) (some true)
         "Order processing completed successfully",
       AgentEvent.status .completed none 15] := by
  have h := success_event_sequence
    ⟨.ok (), .ok ⟨[⟨"text", "E1"⟩]⟩, .ok (), .ok ⟨[⟨"text", "E2"⟩]⟩,
      fun s =>
        if s = "E1" then .ok (Json.obj [("email", Json.str "alice@example.com")])
        else if s = "E2" then
          .ok (Json.obj [("ok", Json.bool true), ("message", Json.str "sent")])
        else .error "bad json"⟩
    "XYZ-789" (fun k => k) ⟨[⟨"text", "E1"⟩]⟩ ⟨[⟨"text", "E2"⟩]⟩ ⟨"text", "E1"⟩ []
    ⟨"text", "E2"⟩ [] (Json.obj [("email", Json.str "alice@example.com")])
    (Json.obj [("ok", Json.bool true), ("message", Json.str "sent")])
    (Json.str "alice@example.com") (Json.bool true) (some (Json.str "sent"))
    rfl rfl rfl rfl rfl rfl rfl rfl rfl rfl rfl rfl rfl
  rw [h]
  rfl

/-- A step progress event in the error state. -/
def isErrorStep : AgentEvent → Bool
  | .step _ _ .error _ _ => true
  | _ => false

end Workflow

namespace Workflow

/--
C2 counterexample: the claim says that when a workflow phase fails, a
`step` event with the same identity as the earlier `running` step is
emitted in state `error` before the workflow ends in `status: error`.  In
the server-B-unreachable scenario below, `emailClient.connect()` throws
after the CRM phases succeed: the route emits the connect-email step in
the `running` state, then the catch block emits only an `error` event and
a `status: error` event — the emitted trace contains no `step` event in
the `error` state at all, so the connect-email step never transitions to
`error`.
-/
theorem step_error_counterexample :
    runWorkflow
        ⟨.ok (), .ok ⟨[⟨"text", "E1"⟩]⟩, .error "fetch failed", .error "unused",
          fun s =>
            if s = "E1" then .ok (Json.obj [("email", Json.str "alice@example.com")])
            else .error "bad json"⟩
        "XYZ-789" (fun k => k) =
      [AgentEvent.status .running none 0,
       AgentEvent.step "connect-crm-1" "Connecting to CRM server..." .running 2 none,
       AgentEvent.step "connect-crm-1" "Connected to CRM server" .success 3 none,
       AgentEvent.step "fetch-email-4" "Fetching customer email for order #XYZ-789..."
         .running 5 none,
       AgentEvent.step "fetch-email-4" "Found customer email: alice@example.com"
         .success 6 (some (StepData.emailData (some (Json.str "alice@example.com")))),
       AgentEvent.result 7 "XYZ-789" (some (Json.str "alice@example.com")) (some false)
         "Customer email retrieved",
       AgentEvent.step "connect-email-8" "Connecting to Email server..." .running 9 none,
       AgentEvent.error 10 "fetch failed",
       AgentEvent.status .error (some "fetch failed") 11] ∧
    (runWorkflow
        ⟨.ok (), .ok ⟨[⟨"text", "E1"⟩]⟩, .error "fetch failed", .error "unused",
          fun s =>
            if s = "E1" then .ok (Json.obj [("email", Json.str "alice@example.com")])
            else .error "bad json"⟩
        "XYZ-789" (fun k => k)).countP (fun e => isErrorStep e) = 0 := by
  constructor
  · rfl
  · rfl

theorem runTry_no_error_step (w : WorkflowWorld) (orderId : String) (now : Nat → Nat) :
    ((runTry w orderId now).1).countP (fun e => isErrorStep e) = 0 := by
  unfold runTry
  repeat' split
  all_goals rfl

/--
C2 amended: when any workflow phase fails — connect-A, call-A (including
the domain customer-not-found failure and malformed tool results),
connect-B, or call-B — the orchestrator does not emit any `step` event in
the `error` state: no run of the route ever writes one, so the failing
phase's step remains in its `running` state; instead the run appends
exactly one `error` event carrying the failure message followed by one
`status: error` event before the stream closes.
-/
theorem workflow_failure_no_error_step (w : WorkflowWorld) (orderId : String)
    (now : Nat → Nat) :
    (runWorkflow w orderId now).countP (fun e => isErrorStep e) = 0 ∧
    ∀ es k msg, runTry w orderId now = (es, k, .error msg) →
      runWorkflow w orderId now =
        es ++ [AgentEvent.error (now k) msg,
          AgentEvent.status .error (some msg) (now (k + 1))] := by
  have h0 := runTry_no_error_step w orderId now
  constructor
  · rcases hr : runTry w orderId now with ⟨es, k, r⟩
    rw [hr] at h0
    cases r with
    | ok u =>
      unfold runWorkflow
      rw [hr]
      exact h0
    | error msg =>
      unfold runWorkflow
      rw [hr]
      show (es ++ [AgentEvent.error (now k) msg,
        AgentEvent.status .error (some msg) (now (k + 1))]).countP
          (fun e => isErrorStep e) = 0
      rw [List.countP_append, h0]
      rfl
  · intro es k msg hr
    unfold runWorkflow
    rw [hr]

/-- Witness for `workflow_failure_no_error_step` at the concrete
server-B-unreachable scenario under the identity clock: the run emits no
error-state step event, and its trace is the seven try-block events
followed by exactly one `error` event and one `status: error` event. -/
theorem workflow_failure_no_error_step_witness :
    (runWorkflow
        ⟨.ok (), .ok ⟨[⟨"text", "E1"⟩]⟩, .error "ECONNREFUSED", .error "unused",
          fun s =>
            if s = "E1" then .ok (Json.obj [("email", Json.str "alice@example.com")])
            else .error "bad json"⟩
        "ORD-1" (fun k => k)).countP (fun e => isErrorStep e) = 0 ∧
    runWorkflow
        ⟨.ok (), .ok ⟨[⟨"text", "E1"⟩]⟩, .error "ECONNREFUSED", .error "unused",
          fun s =>
            if s = "E1" then .ok (Json.obj [("email", Json.str "alice@example.com")])
            else .error "bad json"⟩
        "ORD-1" (fun k => k) =
      [AgentEvent.status .running none 0,
       AgentEvent.step "connect-crm-1" "Connecting to CRM server..." .running 2 none,
       AgentEvent.step "connect-crm-1" "Connected to CRM server" .success 3 none,
       AgentEvent.step "fetch-email-4" "Fetching customer email for order #ORD-1..."
         .running 5 none,
       AgentEvent.step "fetch-email-4" "Found customer email: alice@example.com"
         .success 6 (some (StepData.emailData (some (Json.str "alice@example.com")))),
       AgentEvent.result 7 "ORD-1" (some (Json.str "alice@example.com")) (some false)
         "Customer email retrieved",
       AgentEvent.step "connect-email-8" "Connecting to Email server..." .running 9 none]
      ++ [AgentEvent.error 10 "ECONNREFUSED",
          AgentEvent.status .error (some "ECONNREFUSED") 11] := by
  have h := workflow_failure_no_error_step
    ⟨.ok (), .ok ⟨[⟨"text", "E1"⟩]⟩, .error "ECONNREFUSED", .error "unused",
      fun s =>
        if s = "E1" then .ok (Json.obj [("email", Json.str "alice@example.com")])
        else .error "bad json"⟩
    "ORD-1" (fun k => k)
  exact ⟨h.1, h.2
    [AgentEvent.status .running none 0,
     AgentEvent.step "connect-crm-1" "Connecting to CRM server..." .running 2 none,
     AgentEvent.step "connect-crm-1" "Connected to CRM server" .success 3 none,
     AgentEvent.step "fetch-email-4" "Fetching customer email for order #ORD-1..."
       .running 5 none,
     AgentEvent.step "fetch-email-4" "Found customer email: alice@example.com"
       .success 6 (some (StepData.emailData (some (Json.str "alice@example.com")))),
     AgentEvent.result 7 "ORD-1" (some (Json.str "alice@example.com")) (some false)
       "Customer email retrieved",
     AgentEvent.step "connect-email-8" "Connecting to Email server..." .running 9 none]
    10 "ECONNREFUSED" rfl⟩

end Workflow
